import Mathlib

/-!
Verification of the LoRa wake-up coordination repository.

The development shallowly embeds the packet codecs and coordinator logic of
the repository:

* `Timer` — the host/client schedule packet of
  `working coordination/Timer.h` (byte-identical to
  `7-26-24-COORDINATEINTERVALINMAIN/Timer.h`): fields
  `currentTime : time_t` (8 bytes on the wire), `messageInterval : uint16_t`,
  `waitTime : uint16_t`, `sleepState : uint8_t`, and a trailing XOR checksum
  byte; 14 bytes total.
* `PlainTimer` — the checksum-less early variant of `src/Timer.h`
  (13 bytes, no checksum, `deserialize` is `void` and never fails).
* `RakSender.TimerPacket` — the broadcaster packet of
  `RAK Projects/RAK_Sender/WakeUpCoordination.h` (9 bytes).
* `HeltecRouter.TimerPacket` — the addressed packet of
  `RAK Projects/HELTEC_Router/WakeUpCoordination.h` (11 bytes).
* `RakSender.Coordinator` — the SENDER state machine of
  `RAK Projects/RAK_Sender/WakeUpCoordination.h` together with its radio
  callbacks.
* `clientHandleRx` / `hostAckSleep` — the per-receive behaviour of
  `working coordination/WakeUpCoordination.h`.

Buffers are lists of natural numbers; each entry stands for one `uint8_t`
(so it is `< 256` wherever the C++ code can only ever store a byte there).
Multi-byte fields are little-endian, exactly as `memcpy` lays them out on
the target MCUs.  Machine arithmetic on `unsigned long` (32 bit on the
boards used) is made explicit with `u32sub`.
-/

namespace LoRaSpec

/-- Little-endian byte image of a value, `w` bytes wide: byte `i` is
`v / 256^i % 256`, exactly what `memcpy` of a little-endian integer of
width `w` writes. -/
def leBytes : Nat → Nat → List Nat
  | 0, _ => []
  | w + 1, v => v % 256 :: leBytes w (v / 256)

/-- Value of a little-endian byte list, the effect of `memcpy` from a
buffer into an integer field. -/
def leValue : List Nat → Nat
  | [] => 0
  | b :: bs => b + 256 * leValue bs

/-- The `w` bytes of a buffer starting at offset `off`:
`memcpy(&field, buffer + off, w)` reads exactly these positions. -/
def slice (data : List Nat) (off w : Nat) : List Nat :=
  (data.drop off).take w

/-- Running XOR over a byte list: the `calculateChecksum` loop of
`working coordination/Timer.h` lines 116-122 (`checksum ^= data[i]`). -/
def xorChecksum (bs : List Nat) : Nat :=
  bs.foldl (fun a b => a ^^^ b) 0

/-- Flip bit `k` of byte `i` of a buffer (single-bit corruption). -/
def flipBit (data : List Nat) (i k : Nat) : List Nat :=
  data.set i (data.getD i 0 ^^^ 2 ^ k)

/-- `2^32`, the modulus of `unsigned long` arithmetic on the target MCUs. -/
def u32 : Nat := 4294967296

/-- C `unsigned long` subtraction `a - b` (wraparound semantics). -/
def u32sub (a b : Nat) : Nat :=
  (a % u32 + (u32 - b % u32)) % u32

/-! ### Variant A: the host/client `Timer` packet

From `working coordination/Timer.h` (identical in
`7-26-24-COORDINATEINTERVALINMAIN/Timer.h`).  Wire layout:
`currentTime(8) | messageInterval(2) | waitTime(2) | sleepState(1) | checksum(1)`,
14 bytes. -/

/-- The stored fields of the `Timer` class.  `currentTime` holds the
`time_t` bit pattern (8 bytes on the wire). -/
structure Timer where
  currentTime : Nat
  messageInterval : Nat
  waitTime : Nat
  sleepState : Nat
deriving DecidableEq, Repr

/-- `DATA_SIZE` of `working coordination/WakeUpCoordination.h` line 44:
`sizeof(time_t) + 2*sizeof(uint16_t) + sizeof(uint8_t) + sizeof(uint8_t)`. -/
def DATA_SIZE : Nat := 14

/-- The value constructor `Timer(currentTime, messageInterval, waitTime,
sleepState)` of `working coordination/Timer.h` lines 24-25: it stores
`sleepState & 0x03`, the other fields verbatim. -/
def Timer.ofFields (currentTime messageInterval waitTime sleepState : Nat) : Timer :=
  ⟨currentTime, messageInterval, waitTime, sleepState &&& 0x03⟩

/-- The first 13 serialized bytes (all fields, little-endian, in
declaration order), as written by `serialize` lines 82-85. -/
def Timer.payloadBytes (t : Timer) : List Nat :=
  leBytes 8 t.currentTime ++ leBytes 2 t.messageInterval ++
    leBytes 2 t.waitTime ++ leBytes 1 t.sleepState

/-- `Timer::serialize` (lines 81-89): field bytes followed by the XOR
checksum of those 13 bytes. -/
def Timer.serialize (t : Timer) : List Nat :=
  t.payloadBytes ++ [xorChecksum t.payloadBytes]

/-- `Timer::deserialize` (lines 96-108): read the checksum byte at offset
13, recompute the XOR over bytes 0-12, reject on mismatch (`none`), and
only on success copy the fields out of the buffer. -/
def Timer.deserialize (data : List Nat) : Option Timer :=
  let checksum := data.getD 13 0
  let calculatedChecksum := xorChecksum (data.take 13)
  if checksum = calculatedChecksum then
    some ⟨leValue (slice data 0 8), leValue (slice data 8 2),
          leValue (slice data 10 2), data.getD 12 0⟩
  else
    none

/-- `Timer::deserialize` again, with the C++ calling convention made
explicit: the function receives a bare `const uint8_t*` and no length, so
its input is the whole memory after the pointer (`data i` is the byte at
offset `i`).  It unconditionally reads offsets 0-13. -/
def Timer.deserializeMem (data : Nat → Nat) : Option Timer :=
  let checksum := data 13
  let calculatedChecksum := xorChecksum ((List.range 13).map data)
  if checksum = calculatedChecksum then
    some ⟨leValue ((List.range 8).map data),
          leValue ((List.range 2).map fun i => data (8 + i)),
          leValue ((List.range 2).map fun i => data (10 + i)),
          data 12⟩
  else
    none

/-- The converting constructor `Timer(const uint8_t*)` (lines 31-39): on
deserialization failure every field is set to 0. -/
def Timer.ofBuffer (data : List Nat) : Timer :=
  match Timer.deserialize data with
  | some t => t
  | none => ⟨0, 0, 0, 0⟩

/-! ### The checksum-less early variant, `src/Timer.h`

Wire layout `currentTime(8) | messageInterval(2) | waitTime(2) |
sleepState(1)` = 13 bytes; `deserialize` is `void`: it copies the fields
and cannot fail. -/

/-- Fields of the `Timer` class of `src/Timer.h`. -/
structure PlainTimer where
  currentTime : Nat
  messageInterval : Nat
  waitTime : Nat
  sleepState : Nat
deriving DecidableEq, Repr

/-- `Timer::serialize` of `src/Timer.h` lines 37-42: field bytes only, no
checksum is appended. -/
def PlainTimer.serialize (t : PlainTimer) : List Nat :=
  leBytes 8 t.currentTime ++ leBytes 2 t.messageInterval ++
    leBytes 2 t.waitTime ++ leBytes 1 t.sleepState

/-- `Timer::deserialize` of `src/Timer.h` lines 45-50: copies the fields
out of the buffer unconditionally; there is no checksum and no failure
path. -/
def PlainTimer.deserialize (data : List Nat) : PlainTimer :=
  ⟨leValue (slice data 0 8), leValue (slice data 8 2),
   leValue (slice data 10 2), data.getD 12 0⟩

/-! ### Variant B: the broadcaster packet and SENDER state machine

From `RAK Projects/RAK_Sender/WakeUpCoordination.h`.  Wire layout
`packetId(4) | messageInterval_s(2) | wakeWindow_s(2) | checksum(1)` =
9 bytes.  The class has no padding between its first three fields, so the
raw-memory checksum of `calculateChecksum` (lines 74-81, XOR over the
first `PACKET_SIZE - 1` object bytes) coincides with the XOR of the
little-endian field bytes. -/

namespace RakSender

/-- Fields of the `TimerPacket` class (lines 30-82). -/
structure TimerPacket where
  packetId : Nat
  messageInterval_s : Nat
  wakeWindow_s : Nat
  checksum : Nat
deriving DecidableEq, Repr

/-- `TimerPacket::PACKET_SIZE` (line 37). -/
def TimerPacket.PACKET_SIZE : Nat := 9

/-- The first 8 serialized bytes, which also are the first 8 raw object
bytes that `calculateChecksum` XORs together. -/
def TimerPacket.payloadBytes (p : TimerPacket) : List Nat :=
  leBytes 4 p.packetId ++ leBytes 2 p.messageInterval_s ++ leBytes 2 p.wakeWindow_s

/-- `TimerPacket::calculateChecksum` (lines 74-81): XOR of the 8 bytes
preceding the checksum field. -/
def TimerPacket.calculateChecksum (p : TimerPacket) : Nat :=
  xorChecksum p.payloadBytes

/-- The constructor `TimerPacket(id, interval, window)` (lines 41-44).
The parameters are `uint32_t`/`uint16_t`, so the arguments are reduced to
those widths; the checksum field is then set from the stored fields. -/
def TimerPacket.mkPacket (id interval window : Nat) : TimerPacket :=
  let p : TimerPacket := ⟨id % 4294967296, interval % 65536, window % 65536, 0⟩
  { p with checksum := p.calculateChecksum }

/-- `TimerPacket::serialize` (lines 46-55): the three fields little-endian
followed by the stored checksum byte. -/
def TimerPacket.serialize (p : TimerPacket) : List Nat :=
  p.payloadBytes ++ [p.checksum]

/-- `TimerPacket::deserialize` (lines 57-72).  The C++ method mutates
`this`: it overwrites `packetId`, `messageInterval_s` and `wakeWindow_s`
from the buffer first, then recomputes the checksum over those freshly
written fields and compares it with the received checksum byte.  On match
it also stores the received checksum and returns `true`; on mismatch it
returns `false`, leaving the payload fields overwritten and the checksum
field at its prior value.  Modelled as prior state in, `(success, new
state)` out. -/
def TimerPacket.deserialize (p : TimerPacket) (buffer : List Nat) : Bool × TimerPacket :=
  let decoded : TimerPacket :=
    ⟨leValue (slice buffer 0 4), leValue (slice buffer 4 2),
     leValue (slice buffer 6 2), p.checksum⟩
  let receivedChecksum := buffer.getD 8 0
  if receivedChecksum = decoded.calculateChecksum then
    (true, { decoded with checksum := receivedChecksum })
  else
    (false, decoded)

/-- `SenderState_t` (lines 114-120). -/
inductive SenderState
  | IDLE
  | CAD_IN_PROGRESS
  | READY_TO_SEND
  | WAITING_FOR_TX_DONE
  | CYCLE_COMPLETE
deriving DecidableEq, Repr

/-- Radio commands the coordinator issues to the transport. -/
inductive RadioAction
  | standby
  | startCad
  | send (buffer : List Nat)
  | sleep
deriving DecidableEq, Repr

/-- Whether an action is a packet transmission. -/
def RadioAction.isSend : RadioAction → Bool
  | .send _ => true
  | _ => false

/-- The mutable state of `WakeUpCoordinator` in SENDER role (lines
122, 226-229). -/
structure Coordinator where
  senderState : SenderState
  cycleInterval : Nat
  wakeWindow : Nat
  lastCycleStartTime : Nat
  packetCounter : Nat
deriving DecidableEq, Repr

/-- The buffer handed to `Radio.Send` in the `READY_TO_SEND` branch of
`run` (lines 199-213): the serialized packet composed from the counter
and the current interval/window (seconds), with its final byte — the
checksum — XORed with `0xFF` ("INTENTIONALLY CORRUPT THE PACKET for relay
node test", line 205-206). -/
def txBuffer (c : Coordinator) : List Nat :=
  let packet := TimerPacket.mkPacket c.packetCounter (c.cycleInterval / 1000) (c.wakeWindow / 1000)
  let buffer := packet.serialize
  buffer.set (TimerPacket.PACKET_SIZE - 1)
    (buffer.getD (TimerPacket.PACKET_SIZE - 1) 0 ^^^ 0xFF)

/-- `WakeUpCoordinator::run` (lines 171-221), at poll time `now`
(= `millis()`), returning the updated coordinator and the radio commands
issued. -/
def run (c : Coordinator) (now : Nat) : Coordinator × List RadioAction :=
  match c.senderState with
  | .IDLE =>
      if u32sub now c.lastCycleStartTime ≥ c.cycleInterval then
        ({ c with lastCycleStartTime := now, senderState := .CAD_IN_PROGRESS },
         [.standby, .startCad])
      else
        (c, [])
  | .CAD_IN_PROGRESS =>
      if u32sub now c.lastCycleStartTime > c.wakeWindow then
        ({ c with senderState := .CYCLE_COMPLETE }, [.sleep])
      else
        (c, [])
  | .READY_TO_SEND =>
      ({ c with packetCounter := c.packetCounter + 1,
                senderState := .WAITING_FOR_TX_DONE },
       [.send (txBuffer c)])
  | .WAITING_FOR_TX_DONE => (c, [])
  | .CYCLE_COMPLETE => ({ c with senderState := .IDLE }, [])

/-- `OnCadDone` (lines 240-247): channel busy re-arms CAD and leaves the
state alone; channel clear moves to `READY_TO_SEND`. -/
def onCadDone (c : Coordinator) (channelActivityDetected : Bool) : Coordinator × List RadioAction :=
  if channelActivityDetected then
    (c, [.startCad])
  else
    ({ c with senderState := .READY_TO_SEND }, [])

/-- `OnTxDone` (lines 249-254). -/
def onTxDone (c : Coordinator) : Coordinator × List RadioAction :=
  ({ c with senderState := .CYCLE_COMPLETE }, [.sleep])

/-- `OnTxTimeout` (lines 256-261). -/
def onTxTimeout (c : Coordinator) : Coordinator × List RadioAction :=
  ({ c with senderState := .CYCLE_COMPLETE }, [.sleep])

/-- One interaction with the coordinator: either a poll of `run` at a
given `millis()` value, or one of the asynchronous radio callbacks. -/
inductive Event
  | poll (now : Nat)
  | cadDone (channelActivityDetected : Bool)
  | txDone
  | txTimeout
deriving DecidableEq, Repr

/-- Dispatch one event. -/
def step (c : Coordinator) : Event → Coordinator × List RadioAction
  | .poll now => run c now
  | .cadDone b => onCadDone c b
  | .txDone => onTxDone c
  | .txTimeout => onTxTimeout c

/-- State after a sequence of events. -/
def runTrace (c : Coordinator) : List Event → Coordinator
  | [] => c
  | e :: es => runTrace (step c e).1 es

/-- All radio commands issued over a sequence of events. -/
def traceActions (c : Coordinator) : List Event → List RadioAction
  | [] => []
  | e :: es => (step c e).2 ++ traceActions (step c e).1 es

/-- Events in which every channel-activity sense reports "busy": polls
and busy CAD callbacks only. -/
def busyOnly : Event → Bool
  | .poll _ => true
  | .cadDone b => b
  | _ => false

/-- Result of the RECEIVER-role `OnRxDone` callback (lines 264-287). -/
inductive RxResult
  | sizeMismatch
  | checksumInvalid
  | accepted (p : TimerPacket)
deriving DecidableEq, Repr

/-- `OnRxDone` (lines 264-287): a payload whose size differs from
`PACKET_SIZE` is discarded before any decoding; otherwise a
default-constructed `TimerPacket` deserializes the payload and the packet
is surfaced only if the checksum validates. -/
def onRxDone (payload : List Nat) (size : Nat) : RxResult :=
  if size ≠ TimerPacket.PACKET_SIZE then
    .sizeMismatch
  else
    let r := TimerPacket.deserialize ⟨0, 0, 0, 0⟩ payload
    if r.1 then .accepted r.2 else .checksumInvalid

end RakSender

/-! ### Variant C: the addressed router packet

From `RAK Projects/HELTEC_Router/WakeUpCoordination.h`.  Wire layout
`sourceId(1) | destinationId(1) | packetId(4) | messageInterval_s(2) |
wakeWindow_s(2) | checksum(1)` = 11 bytes.  `calculateChecksum`
(lines 103-127) XORs the field values byte by byte, not raw object
memory. -/

namespace HeltecRouter

/-- Fields of the router `TimerPacket` class (lines 29-128). -/
structure TimerPacket where
  sourceId : Nat
  destinationId : Nat
  packetId : Nat
  messageInterval_s : Nat
  wakeWindow_s : Nat
  checksum : Nat
deriving DecidableEq, Repr

/-- `TimerPacket::PACKET_SIZE` (line 40): `1 + 1 + 4 + 2 + 2 + 1`. -/
def TimerPacket.PACKET_SIZE : Nat := 11

/-- The 10 serialized bytes preceding the checksum, in field order
(lines 52-63). -/
def TimerPacket.payloadBytes (p : TimerPacket) : List Nat :=
  leBytes 1 p.sourceId ++ leBytes 1 p.destinationId ++ leBytes 4 p.packetId ++
    leBytes 2 p.messageInterval_s ++ leBytes 2 p.wakeWindow_s

/-- `TimerPacket::calculateChecksum` (lines 103-127): XOR of `sourceId`,
`destinationId`, and each little-endian byte of the three multi-byte
fields — exactly the XOR of the 10 payload bytes. -/
def TimerPacket.calculateChecksum (p : TimerPacket) : Nat :=
  xorChecksum p.payloadBytes

/-- The constructor `TimerPacket(src, dest, id, interval, window)`
(lines 45-48), parameters reduced to their declared widths, followed by
`recomputeChecksum()`. -/
def TimerPacket.mkPacket (src dest id interval window : Nat) : TimerPacket :=
  let p : TimerPacket :=
    ⟨src % 256, dest % 256, id % 4294967296, interval % 65536, window % 65536, 0⟩
  { p with checksum := p.calculateChecksum }

/-- `TimerPacket::serialize` (lines 52-65). -/
def TimerPacket.serialize (p : TimerPacket) : List Nat :=
  p.payloadBytes ++ [p.checksum]

/-- `TimerPacket::deserialize` (lines 69-92): overwrites all five payload
fields from the buffer, then verifies the received checksum byte against
the checksum of the freshly written fields; `true` stores the received
checksum, `false` leaves the checksum field at its prior value with the
payload fields already overwritten. -/
def TimerPacket.deserialize (p : TimerPacket) (buffer : List Nat) : Bool × TimerPacket :=
  let decoded : TimerPacket :=
    ⟨buffer.getD 0 0, buffer.getD 1 0, leValue (slice buffer 2 4),
     leValue (slice buffer 6 2), leValue (slice buffer 8 2), p.checksum⟩
  let receivedChecksum := buffer.getD 10 0
  if receivedChecksum = decoded.calculateChecksum then
    (true, { decoded with checksum := receivedChecksum })
  else
    (false, decoded)

end HeltecRouter

/-! ### The host/client coordination round

From `working coordination/WakeUpCoordination.h` (the
`7-26-24-COORDINATEINTERVALINMAIN` copy differs only in taking the
interval as a parameter). -/

/-- Host side, lines 96-111: on receiving an acknowledgment byte equal to
the stored checksum of the last send, the host computes
`timeSinceSent = (millis() - sendTime) / 1000` and returns
`messageInterval - timeSinceSent` — all in `unsigned long` arithmetic,
with no clamping. -/
def hostAckSleep (messageInterval sendTime now : Nat) : Nat :=
  let timeSinceSent := u32sub now sendTime / 1000
  u32sub messageInterval timeSinceSent

/-- Client side, lines 159-160: after the reply burst the client computes
`timeElapsed = (millis() - receivedTime) / 1000` and returns
`messageInterval - timeElapsed` in `unsigned long` arithmetic. -/
def clientAckSleep (messageInterval receivedTime now : Nat) : Nat :=
  let timeElapsed := u32sub now receivedTime / 1000
  u32sub messageInterval timeElapsed

/-- What the client does with one successfully received buffer. -/
structure ClientOutcome where
  /-- `timer = receivedTimer` — the schedule adopted, if any. -/
  adopted : Option Timer
  /-- whether `receivedTime = millis()` was recorded. -/
  receiptRecorded : Bool
  /-- the reply transmissions, each as (milliseconds of `delay` before
  the send, transmitted byte). -/
  sends : List (Nat × Nat)
  /-- the returned sleep duration in seconds, `none` when the loop keeps
  listening. -/
  sleepSeconds : Option Nat
deriving DecidableEq, Repr

/-- One iteration of `clientCoordinate` (lines 124-175) in which
`radio.receive` delivered `data`, with `elapsedSec` the value of
`(millis() - receivedTime) / 1000` after the reply burst.  On a checksum
match the client adopts the decoded timer, records the receipt time,
sends the echoed checksum byte 5 times, each preceded by `delay(225)`,
and returns `messageInterval - elapsed`; on mismatch it sends nothing and
keeps listening. -/
def clientHandleRx (data : List Nat) (elapsedSec : Nat) : ClientOutcome :=
  let receivedTimer := Timer.ofBuffer data
  let receivedChecksum := data.getD (DATA_SIZE - 1) 0
  let calculatedChecksum := xorChecksum (data.take (DATA_SIZE - 1))
  if receivedChecksum = calculatedChecksum then
    { adopted := some receivedTimer
      receiptRecorded := true
      sends := List.replicate 5 (225, receivedChecksum)
      sleepSeconds := some (u32sub receivedTimer.messageInterval elapsedSec) }
  else
    { adopted := none, receiptRecorded := false, sends := [], sleepSeconds := none }

/-! ### Helper lemmas -/

theorem leBytes_length (w v : Nat) : (leBytes w v).length = w := by
  induction w generalizing v with
  | zero => rfl
  | succ w ih => simp [leBytes, ih]

theorem leBytes_lt (w v : Nat) : ∀ b ∈ leBytes w v, b < 256 := by
  induction w generalizing v with
  | zero => simp [leBytes]
  | succ w ih =>
    intro b hb
    simp only [leBytes, List.mem_cons] at hb
    rcases hb with h | h
    · subst h; omega
    · exact ih _ b h

theorem leValue_leBytes (w v : Nat) (h : v < 256 ^ w) : leValue (leBytes w v) = v := by
  induction w generalizing v with
  | zero =>
    simp [Nat.pow_zero] at h
    simp [leBytes, leValue, h]
  | succ w ih =>
    have hdiv : v / 256 < 256 ^ w := by
      rw [Nat.div_lt_iff_lt_mul (by omega : 0 < 256)]
      calc v < 256 ^ (w + 1) := h
        _ = 256 ^ w * 256 := by ring
    simp only [leBytes, leValue, ih (v / 256) hdiv]
    omega

theorem leBytes_leValue (w : Nat) (bs : List Nat) (hlen : bs.length = w)
    (hb : ∀ b ∈ bs, b < 256) : leBytes w (leValue bs) = bs := by
  induction w generalizing bs with
  | zero =>
    have : bs = [] := List.length_eq_zero.mp hlen
    simp [this, leBytes]
  | succ w ih =>
    match bs, hlen with
    | b :: bs, hlen =>
      have hb0 : b < 256 := hb b (List.mem_cons_self _ _)
      have hmod : (b + 256 * leValue bs) % 256 = b := by omega
      have hdiv : (b + 256 * leValue bs) / 256 = leValue bs := by omega
      simp only [leBytes, leValue, hmod, hdiv]
      congr 1
      exact ih bs (by simpa using hlen) (fun x hx => hb x (List.mem_cons_of_mem _ hx))

theorem foldl_xor_init (l : List Nat) (a : Nat) :
    l.foldl (fun x y => x ^^^ y) a = a ^^^ l.foldl (fun x y => x ^^^ y) 0 := by
  induction l generalizing a with
  | nil => simp
  | cons b l ih =>
    simp only [List.foldl_cons]
    rw [ih (a ^^^ b), ih (0 ^^^ b)]
    simp [Nat.xor_assoc]

theorem xorChecksum_nil : xorChecksum [] = 0 := rfl

theorem xorChecksum_cons (b : Nat) (l : List Nat) :
    xorChecksum (b :: l) = b ^^^ xorChecksum l := by
  simp only [xorChecksum, List.foldl_cons]
  rw [foldl_xor_init l (0 ^^^ b)]
  simp

theorem xorChecksum_append (l m : List Nat) :
    xorChecksum (l ++ m) = xorChecksum l ^^^ xorChecksum m := by
  induction l with
  | nil => simp [xorChecksum_nil]
  | cons b l ih =>
    simp only [List.cons_append, xorChecksum_cons, ih, Nat.xor_assoc]

theorem xorChecksum_set (l : List Nat) (i m : Nat) (h : i < l.length) :
    xorChecksum (l.set i (l.getD i 0 ^^^ m)) = xorChecksum l ^^^ m := by
  induction l generalizing i with
  | nil => simp at h
  | cons b l ih =>
    cases i with
    | zero =>
      simp only [List.set_cons_zero, List.getD_cons_zero, xorChecksum_cons]
      rw [Nat.xor_assoc, Nat.xor_comm m (xorChecksum l), ← Nat.xor_assoc]
    | succ i =>
      have hi : i < l.length := by simpa using h
      simp only [List.set_cons_succ, List.getD_cons_succ, xorChecksum_cons, ih i hi]
      rw [Nat.xor_assoc]

theorem xor_ne_self {a m : Nat} (hm : m ≠ 0) : a ^^^ m ≠ a := by
  intro h
  have h2 : a ^^^ (a ^^^ m) = 0 := by rw [h, Nat.xor_self]
  rw [← Nat.xor_assoc, Nat.xor_self, Nat.zero_xor] at h2
  exact hm h2

theorem getD_of_drop (l : List Nat) (i x : Nat) (xs : List Nat)
    (h : l.drop i = x :: xs) : l.getD i 0 = x := by
  induction l generalizing i with
  | nil => simp at h
  | cons b l ih =>
    cases i with
    | zero => simp at h; simp [h.1]
    | succ i =>
      simp only [List.drop_succ_cons] at h
      simpa using ih i h

theorem set_append_length (l m : List Nat) (x : Nat) :
    (l ++ m).set l.length x = l ++ m.set 0 x := by
  induction l with
  | nil => simp
  | cons b l ih => simp [List.set, ih]

theorem slice_zero_take (l : List Nat) (w : Nat) : slice l 0 w = l.take w := by
  simp [slice]

theorem slice_add (l : List Nat) (off a b : Nat) :
    slice l off (a + b) = slice l off a ++ slice l (off + a) b := by
  simp only [slice, List.take_add]
  congr 1
  rw [List.drop_drop]

theorem slice_length (l : List Nat) (off w : Nat) (h : off + w ≤ l.length) :
    (slice l off w).length = w := by
  simp only [slice, List.length_take, List.length_drop]
  omega

theorem slice_subset (l : List Nat) (off w : Nat) : slice l off w ⊆ l := by
  intro x hx
  exact List.drop_subset off l (List.take_subset w _ hx)

theorem take_append_of_length (l m : List Nat) (n : Nat) (h : l.length = n) :
    (l ++ m).take n = l := by
  rw [← h]
  exact List.take_left l m

theorem drop_append_of_length (l m : List Nat) (n : Nat) (h : l.length = n) :
    (l ++ m).drop n = m := by
  rw [← h]
  exact List.drop_left l m

theorem u32sub_lt (a b : Nat) : u32sub a b < u32 :=
  Nat.mod_lt _ (by decide)

theorem u32sub_of_le (a b : Nat) (ha : a < u32) (h : b ≤ a) : u32sub a b = a - b := by
  have hb : b < u32 := lt_of_le_of_lt h ha
  unfold u32sub
  rw [Nat.mod_eq_of_lt ha, Nat.mod_eq_of_lt hb]
  have h1 : a + (u32 - b) = u32 + (a - b) := by omega
  rw [h1, Nat.add_mod_left, Nat.mod_eq_of_lt (by omega)]

theorem u32sub_of_gt (a b : Nat) (ha : a < u32) (hb : b < u32) (h : a < b) :
    u32sub a b = u32 - (b - a) := by
  unfold u32sub
  rw [Nat.mod_eq_of_lt ha, Nat.mod_eq_of_lt hb]
  have h2 : u32 - (b - a) < u32 := by
    have : 0 < b - a := by omega
    omega
  rw [Nat.mod_eq_of_lt (by omega)]
  omega

/-! ### Serialization structure of the three checksum codecs -/

theorem timer_payload_length (t : Timer) : t.payloadBytes.length = 13 := by
  simp [Timer.payloadBytes, leBytes_length]

theorem Timer.serialize_take13 (t : Timer) : t.serialize.take 13 = t.payloadBytes :=
  take_append_of_length _ _ _ (timer_payload_length t)

theorem Timer.serialize_getD13 (t : Timer) :
    t.serialize.getD 13 0 = xorChecksum t.payloadBytes := by
  have hdrop : t.serialize.drop 13 = [xorChecksum t.payloadBytes] :=
    drop_append_of_length _ _ _ (timer_payload_length t)
  exact getD_of_drop _ _ _ _ hdrop

theorem timer_roundtrip (t : Timer) (h1 : t.currentTime < 256 ^ 8)
    (h2 : t.messageInterval < 256 ^ 2) (h3 : t.waitTime < 256 ^ 2)
    (h4 : t.sleepState < 256) : Timer.deserialize t.serialize = some t := by
  have e1 : t.serialize = leBytes 8 t.currentTime ++
      (leBytes 2 t.messageInterval ++ (leBytes 2 t.waitTime ++
        (leBytes 1 t.sleepState ++ [xorChecksum t.payloadBytes]))) := by
    simp [Timer.serialize, Timer.payloadBytes, List.append_assoc]
  have e2 : t.serialize = (leBytes 8 t.currentTime ++ leBytes 2 t.messageInterval) ++
      (leBytes 2 t.waitTime ++ (leBytes 1 t.sleepState ++ [xorChecksum t.payloadBytes])) := by
    simp [Timer.serialize, Timer.payloadBytes, List.append_assoc]
  have e3 : t.serialize = ((leBytes 8 t.currentTime ++ leBytes 2 t.messageInterval) ++
      leBytes 2 t.waitTime) ++ (leBytes 1 t.sleepState ++ [xorChecksum t.payloadBytes]) := by
    simp [Timer.serialize, Timer.payloadBytes, List.append_assoc]
  have s08 : slice t.serialize 0 8 = leBytes 8 t.currentTime := by
    rw [slice_zero_take, e1]
    exact take_append_of_length _ _ _ (leBytes_length 8 _)
  have s82 : slice t.serialize 8 2 = leBytes 2 t.messageInterval := by
    show (t.serialize.drop 8).take 2 = _
    rw [e1, drop_append_of_length _ _ _ (leBytes_length 8 _)]
    exact take_append_of_length _ _ _ (leBytes_length 2 _)
  have s102 : slice t.serialize 10 2 = leBytes 2 t.waitTime := by
    show (t.serialize.drop 10).take 2 = _
    rw [e2, drop_append_of_length _ _ _ (by simp [leBytes_length])]
    exact take_append_of_length _ _ _ (leBytes_length 2 _)
  have g12 : t.serialize.getD 12 0 = t.sleepState := by
    have hdrop : t.serialize.drop 12 =
        t.sleepState % 256 :: [xorChecksum t.payloadBytes] := by
      rw [e3, drop_append_of_length _ _ _ (by simp [leBytes_length])]
      simp [leBytes]
    rw [getD_of_drop _ _ _ _ hdrop, Nat.mod_eq_of_lt h4]
  simp only [Timer.deserialize, Timer.serialize_take13, Timer.serialize_getD13,
    if_pos rfl, s08, s82, s102, g12]
  rw [leValue_leBytes 8 _ h1, leValue_leBytes 2 _ h2, leValue_leBytes 2 _ h3]
  simp

theorem rak_payload_length (p : RakSender.TimerPacket) :
    p.payloadBytes.length = 8 := by
  simp [RakSender.TimerPacket.payloadBytes, leBytes_length]

theorem rak_serialize_structure (p : RakSender.TimerPacket) :
    slice p.serialize 0 4 = leBytes 4 p.packetId ∧
    slice p.serialize 4 2 = leBytes 2 p.messageInterval_s ∧
    slice p.serialize 6 2 = leBytes 2 p.wakeWindow_s ∧
    p.serialize.getD 8 0 = p.checksum := by
  have e1 : p.serialize = leBytes 4 p.packetId ++
      (leBytes 2 p.messageInterval_s ++ (leBytes 2 p.wakeWindow_s ++ [p.checksum])) := by
    simp [RakSender.TimerPacket.serialize, RakSender.TimerPacket.payloadBytes,
      List.append_assoc]
  have e2 : p.serialize = (leBytes 4 p.packetId ++ leBytes 2 p.messageInterval_s) ++
      (leBytes 2 p.wakeWindow_s ++ [p.checksum]) := by
    simp [RakSender.TimerPacket.serialize, RakSender.TimerPacket.payloadBytes,
      List.append_assoc]
  refine ⟨?_, ?_, ?_, ?_⟩
  · rw [slice_zero_take, e1]
    exact take_append_of_length _ _ _ (leBytes_length 4 _)
  · show (p.serialize.drop 4).take 2 = _
    rw [e1, drop_append_of_length _ _ _ (leBytes_length 4 _)]
    exact take_append_of_length _ _ _ (leBytes_length 2 _)
  · show (p.serialize.drop 6).take 2 = _
    rw [e2, drop_append_of_length _ _ _ (by simp [leBytes_length])]
    exact take_append_of_length _ _ _ (leBytes_length 2 _)
  · have hdrop : p.serialize.drop 8 = [p.checksum] :=
      drop_append_of_length _ _ _ (rak_payload_length p)
    exact getD_of_drop _ _ _ _ hdrop

theorem rak_roundtrip (q : RakSender.TimerPacket) (id interval window : Nat) :
    RakSender.TimerPacket.deserialize q
      (RakSender.TimerPacket.mkPacket id interval window).serialize =
      (true, RakSender.TimerPacket.mkPacket id interval window) := by
  set p := RakSender.TimerPacket.mkPacket id interval window with hp
  obtain ⟨s1, s2, s3, s4⟩ := rak_serialize_structure p
  have hid : p.packetId = id % 4294967296 := by rw [hp]; rfl
  have hin : p.messageInterval_s = interval % 65536 := by rw [hp]; rfl
  have hwin : p.wakeWindow_s = window % 65536 := by rw [hp]; rfl
  have hchk : p.checksum = p.calculateChecksum := by
    rw [hp]
    rfl
  have v1 : leValue (slice p.serialize 0 4) = p.packetId := by
    rw [s1, leValue_leBytes 4 _ (by rw [hid]; exact Nat.mod_lt _ (by decide))]
  have v2 : leValue (slice p.serialize 4 2) = p.messageInterval_s := by
    rw [s2, leValue_leBytes 2 _ (by rw [hin]; exact Nat.mod_lt _ (by decide))]
  have v3 : leValue (slice p.serialize 6 2) = p.wakeWindow_s := by
    rw [s3, leValue_leBytes 2 _ (by rw [hwin]; exact Nat.mod_lt _ (by decide))]
  simp only [RakSender.TimerPacket.deserialize, v1, v2, v3, s4]
  have hcalc : RakSender.TimerPacket.calculateChecksum
      ⟨p.packetId, p.messageInterval_s, p.wakeWindow_s, q.checksum⟩ =
      p.calculateChecksum := by
    simp [RakSender.TimerPacket.calculateChecksum, RakSender.TimerPacket.payloadBytes]
  rw [hcalc, if_pos hchk]

theorem heltec_payload_length (p : HeltecRouter.TimerPacket) :
    p.payloadBytes.length = 10 := by
  simp [HeltecRouter.TimerPacket.payloadBytes, leBytes_length]

theorem heltec_serialize_structure (p : HeltecRouter.TimerPacket) :
    p.serialize.getD 0 0 = p.sourceId % 256 ∧
    p.serialize.getD 1 0 = p.destinationId % 256 ∧
    slice p.serialize 2 4 = leBytes 4 p.packetId ∧
    slice p.serialize 6 2 = leBytes 2 p.messageInterval_s ∧
    slice p.serialize 8 2 = leBytes 2 p.wakeWindow_s ∧
    p.serialize.getD 10 0 = p.checksum := by
  have e0 : p.serialize = p.sourceId % 256 :: (p.destinationId % 256 ::
      (leBytes 4 p.packetId ++ (leBytes 2 p.messageInterval_s ++
        (leBytes 2 p.wakeWindow_s ++ [p.checksum])))) := by
    simp [HeltecRouter.TimerPacket.serialize, HeltecRouter.TimerPacket.payloadBytes,
      leBytes, List.append_assoc]
  have e2 : p.serialize = (leBytes 1 p.sourceId ++ leBytes 1 p.destinationId) ++
      (leBytes 4 p.packetId ++ (leBytes 2 p.messageInterval_s ++
        (leBytes 2 p.wakeWindow_s ++ [p.checksum]))) := by
    simp [HeltecRouter.TimerPacket.serialize, HeltecRouter.TimerPacket.payloadBytes,
      List.append_assoc]
  have e3 : p.serialize = ((leBytes 1 p.sourceId ++ leBytes 1 p.destinationId) ++
      leBytes 4 p.packetId) ++ (leBytes 2 p.messageInterval_s ++
        (leBytes 2 p.wakeWindow_s ++ [p.checksum])) := by
    simp [HeltecRouter.TimerPacket.serialize, HeltecRouter.TimerPacket.payloadBytes,
      List.append_assoc]
  have e4 : p.serialize = (((leBytes 1 p.sourceId ++ leBytes 1 p.destinationId) ++
      leBytes 4 p.packetId) ++ leBytes 2 p.messageInterval_s) ++
        (leBytes 2 p.wakeWindow_s ++ [p.checksum]) := by
    simp [HeltecRouter.TimerPacket.serialize, HeltecRouter.TimerPacket.payloadBytes,
      List.append_assoc]
  refine ⟨?_, ?_, ?_, ?_, ?_, ?_⟩
  · rw [e0]; rfl
  · rw [e0]; rfl
  · show (p.serialize.drop 2).take 4 = _
    rw [e2, drop_append_of_length _ _ _ (by simp [leBytes_length])]
    exact take_append_of_length _ _ _ (leBytes_length 4 _)
  · show (p.serialize.drop 6).take 2 = _
    rw [e3, drop_append_of_length _ _ _ (by simp [leBytes_length])]
    exact take_append_of_length _ _ _ (leBytes_length 2 _)
  · show (p.serialize.drop 8).take 2 = _
    rw [e4, drop_append_of_length _ _ _ (by simp [leBytes_length])]
    exact take_append_of_length _ _ _ (leBytes_length 2 _)
  · have hdrop : p.serialize.drop 10 = [p.checksum] :=
      drop_append_of_length _ _ _ (heltec_payload_length p)
    exact getD_of_drop _ _ _ _ hdrop

theorem heltec_roundtrip (q : HeltecRouter.TimerPacket) (src dest id interval window : Nat) :
    HeltecRouter.TimerPacket.deserialize q
      (HeltecRouter.TimerPacket.mkPacket src dest id interval window).serialize =
      (true, HeltecRouter.TimerPacket.mkPacket src dest id interval window) := by
  set p := HeltecRouter.TimerPacket.mkPacket src dest id interval window with hp
  obtain ⟨s0, s1, s2, s3, s4, s5⟩ := heltec_serialize_structure p
  have hsrc : p.sourceId = src % 256 := by rw [hp]; rfl
  have hdst : p.destinationId = dest % 256 := by rw [hp]; rfl
  have hid : p.packetId = id % 4294967296 := by rw [hp]; rfl
  have hin : p.messageInterval_s = interval % 65536 := by rw [hp]; rfl
  have hwin : p.wakeWindow_s = window % 65536 := by rw [hp]; rfl
  have hchk : p.checksum = p.calculateChecksum := by rw [hp]; rfl
  have g0 : p.serialize.getD 0 0 = p.sourceId := by
    rw [s0, hsrc]; omega
  have g1 : p.serialize.getD 1 0 = p.destinationId := by
    rw [s1, hdst]; omega
  have v1 : leValue (slice p.serialize 2 4) = p.packetId := by
    rw [s2, leValue_leBytes 4 _ (by rw [hid]; exact Nat.mod_lt _ (by decide))]
  have v2 : leValue (slice p.serialize 6 2) = p.messageInterval_s := by
    rw [s3, leValue_leBytes 2 _ (by rw [hin]; exact Nat.mod_lt _ (by decide))]
  have v3 : leValue (slice p.serialize 8 2) = p.wakeWindow_s := by
    rw [s4, leValue_leBytes 2 _ (by rw [hwin]; exact Nat.mod_lt _ (by decide))]
  simp only [HeltecRouter.TimerPacket.deserialize, g0, g1, v1, v2, v3, s5]
  have hcalc : HeltecRouter.TimerPacket.calculateChecksum
      ⟨p.sourceId, p.destinationId, p.packetId, p.messageInterval_s, p.wakeWindow_s,
        q.checksum⟩ = p.calculateChecksum := by
    simp [HeltecRouter.TimerPacket.calculateChecksum, HeltecRouter.TimerPacket.payloadBytes]
  rw [hcalc, if_pos hchk]

theorem leValue_lt (bs : List Nat) (hb : ∀ b ∈ bs, b < 256) :
    leValue bs < 256 ^ bs.length := by
  induction bs with
  | nil => simp [leValue]
  | cons b bs ih =>
    have hb0 : b < 256 := hb b (List.mem_cons_self _ _)
    have ih2 := ih fun x hx => hb x (List.mem_cons_of_mem _ hx)
    simp only [leValue, List.length_cons, pow_succ]
    calc b + 256 * leValue bs < 256 + 256 * leValue bs := by omega
      _ = 256 * (leValue bs + 1) := by ring
      _ ≤ 256 * 256 ^ bs.length := by
          have : leValue bs + 1 ≤ 256 ^ bs.length := ih2
          exact Nat.mul_le_mul_left _ this
      _ = 256 ^ bs.length * 256 := by ring

theorem getD_lt_of_mem (l : List Nat) (i : Nat) (h : i < l.length)
    (hb : ∀ x ∈ l, x < 256) : l.getD i 0 < 256 := by
  have hmem : l.getD i 0 ∈ l := by
    rw [List.getD_eq_getElem?_getD, List.getElem?_eq_getElem h]
    exact List.getElem_mem h
  exact hb _ hmem

theorem slice_one (l : List Nat) (i : Nat) (h : i < l.length) :
    slice l i 1 = [l.getD i 0] := by
  have hne : l.drop i ≠ [] := by
    simp only [ne_eq, List.drop_eq_nil_iff]
    omega
  match hd : l.drop i with
  | [] => exact absurd hd hne
  | x :: xs =>
    simp only [slice, hd, List.take_succ_cons, List.take_zero]
    rw [getD_of_drop _ _ _ _ hd]

/-- Reassembling the byte slices that feed the RAK `deserialize`: the
checksum that `calculateChecksum` computes over the freshly overwritten
fields is the XOR of the buffer's first 8 bytes. -/
theorem rak_decoded_checksum (data : List Nat) (x : Nat) (hlen : 8 ≤ data.length)
    (hb : ∀ b ∈ data, b < 256) :
    RakSender.TimerPacket.calculateChecksum
      ⟨leValue (slice data 0 4), leValue (slice data 4 2), leValue (slice data 6 2), x⟩ =
      xorChecksum (data.take 8) := by
  have r1 : leBytes 4 (leValue (slice data 0 4)) = slice data 0 4 :=
    leBytes_leValue 4 _ (slice_length data 0 4 (by omega))
      (fun b hb2 => hb b (slice_subset data 0 4 hb2))
  have r2 : leBytes 2 (leValue (slice data 4 2)) = slice data 4 2 :=
    leBytes_leValue 2 _ (slice_length data 4 2 (by omega))
      (fun b hb2 => hb b (slice_subset data 4 2 hb2))
  have r3 : leBytes 2 (leValue (slice data 6 2)) = slice data 6 2 :=
    leBytes_leValue 2 _ (slice_length data 6 2 (by omega))
      (fun b hb2 => hb b (slice_subset data 6 2 hb2))
  have hsplit : slice data 0 8 = slice data 0 4 ++ (slice data 4 2 ++ slice data 6 2) := by
    have h1 : slice data 0 8 = slice data 0 4 ++ slice data 4 4 := by
      have := slice_add data 0 4 4
      simpa using this
    have h2 : slice data 4 4 = slice data 4 2 ++ slice data 6 2 := by
      have := slice_add data 4 2 2
      simpa using this
    rw [h1, h2]
  simp only [RakSender.TimerPacket.calculateChecksum, RakSender.TimerPacket.payloadBytes,
    r1, r2, r3]
  rw [← slice_zero_take data 8, hsplit]
  simp [List.append_assoc]

/-- Same reassembly for the HELTEC router `deserialize`: the checksum of
the overwritten fields is the XOR of the buffer's first 10 bytes. -/
theorem heltec_decoded_checksum (data : List Nat) (x : Nat) (hlen : 10 ≤ data.length)
    (hb : ∀ b ∈ data, b < 256) :
    HeltecRouter.TimerPacket.calculateChecksum
      ⟨data.getD 0 0, data.getD 1 0, leValue (slice data 2 4),
       leValue (slice data 6 2), leValue (slice data 8 2), x⟩ =
      xorChecksum (data.take 10) := by
  have g0 : leBytes 1 (data.getD 0 0) = slice data 0 1 := by
    rw [slice_one data 0 (by omega)]
    have h0 : data.getD 0 0 < 256 := getD_lt_of_mem data 0 (by omega) hb
    simp only [leBytes]
    rw [Nat.mod_eq_of_lt h0]
  have g1 : leBytes 1 (data.getD 1 0) = slice data 1 1 := by
    rw [slice_one data 1 (by omega)]
    have h1 : data.getD 1 0 < 256 := getD_lt_of_mem data 1 (by omega) hb
    simp only [leBytes]
    rw [Nat.mod_eq_of_lt h1]
  have r1 : leBytes 4 (leValue (slice data 2 4)) = slice data 2 4 :=
    leBytes_leValue 4 _ (slice_length data 2 4 (by omega))
      (fun b hb2 => hb b (slice_subset data 2 4 hb2))
  have r2 : leBytes 2 (leValue (slice data 6 2)) = slice data 6 2 :=
    leBytes_leValue 2 _ (slice_length data 6 2 (by omega))
      (fun b hb2 => hb b (slice_subset data 6 2 hb2))
  have r3 : leBytes 2 (leValue (slice data 8 2)) = slice data 8 2 :=
    leBytes_leValue 2 _ (slice_length data 8 2 (by omega))
      (fun b hb2 => hb b (slice_subset data 8 2 hb2))
  have hsplit : slice data 0 10 =
      slice data 0 1 ++ (slice data 1 1 ++ (slice data 2 4 ++
        (slice data 6 2 ++ slice data 8 2))) := by
    have h1 : slice data 0 10 = slice data 0 1 ++ slice data 1 9 := by
      have := slice_add data 0 1 9
      simpa using this
    have h2 : slice data 1 9 = slice data 1 1 ++ slice data 2 8 := by
      have := slice_add data 1 1 8
      simpa using this
    have h3 : slice data 2 8 = slice data 2 4 ++ slice data 6 4 := by
      have := slice_add data 2 4 4
      simpa using this
    have h4 : slice data 6 4 = slice data 6 2 ++ slice data 8 2 := by
      have := slice_add data 6 2 2
      simpa using this
    rw [h1, h2, h3, h4]
  simp only [HeltecRouter.TimerPacket.calculateChecksum, HeltecRouter.TimerPacket.payloadBytes,
    g0, g1, r1, r2, r3]
  rw [← slice_zero_take data 10, hsplit]
  simp [List.append_assoc]

/-- Full characterisation of the RAK `deserialize`: payload fields always
come from the buffer; the checksum field and the returned flag depend on
the comparison. -/
theorem rak_deserialize_spec (p : RakSender.TimerPacket) (data : List Nat)
    (hlen : data.length = 9) (hb : ∀ b ∈ data, b < 256) :
    RakSender.TimerPacket.deserialize p data =
      if data.getD 8 0 = xorChecksum (data.take 8) then
        (true, ⟨leValue (slice data 0 4), leValue (slice data 4 2),
                leValue (slice data 6 2), data.getD 8 0⟩)
      else
        (false, ⟨leValue (slice data 0 4), leValue (slice data 4 2),
                 leValue (slice data 6 2), p.checksum⟩) := by
  simp only [RakSender.TimerPacket.deserialize,
    rak_decoded_checksum data p.checksum (by omega) hb]

/-- Full characterisation of the HELTEC router `deserialize`. -/
theorem heltec_deserialize_spec (p : HeltecRouter.TimerPacket) (data : List Nat)
    (hlen : data.length = 11) (hb : ∀ b ∈ data, b < 256) :
    HeltecRouter.TimerPacket.deserialize p data =
      if data.getD 10 0 = xorChecksum (data.take 10) then
        (true, ⟨data.getD 0 0, data.getD 1 0, leValue (slice data 2 4),
                leValue (slice data 6 2), leValue (slice data 8 2), data.getD 10 0⟩)
      else
        (false, ⟨data.getD 0 0, data.getD 1 0, leValue (slice data 2 4),
                 leValue (slice data 6 2), leValue (slice data 8 2), p.checksum⟩) := by
  simp only [HeltecRouter.TimerPacket.deserialize,
    heltec_decoded_checksum data p.checksum (by omega) hb]

/-- One all-busy event (a poll or a busy CAD callback) keeps the sender
out of the transmit states, preserves the packet counter and issues no
send command. -/
theorem busy_step (c : RakSender.Coordinator) (e : RakSender.Event)
    (hb : RakSender.busyOnly e = true)
    (h1 : c.senderState ≠ RakSender.SenderState.READY_TO_SEND)
    (h2 : c.senderState ≠ RakSender.SenderState.WAITING_FOR_TX_DONE) :
    (RakSender.step c e).1.senderState ≠ RakSender.SenderState.READY_TO_SEND ∧
    (RakSender.step c e).1.senderState ≠ RakSender.SenderState.WAITING_FOR_TX_DONE ∧
    (RakSender.step c e).1.packetCounter = c.packetCounter ∧
    ∀ a ∈ (RakSender.step c e).2, a.isSend = false := by
  cases e with
  | poll now =>
    cases hs : c.senderState with
    | IDLE =>
      simp only [RakSender.step, RakSender.run, hs]
      by_cases hcond : u32sub now c.lastCycleStartTime ≥ c.cycleInterval
      · rw [if_pos hcond]
        refine ⟨by simp, by simp, rfl, ?_⟩
        intro a ha
        simp only [List.mem_cons, List.not_mem_nil, or_false] at ha
        rcases ha with h | h <;> simp [h, RakSender.RadioAction.isSend]
      · rw [if_neg hcond]
        refine ⟨?_, ?_, rfl, by simp⟩
        · rw [hs]; simp
        · rw [hs]; simp
    | CAD_IN_PROGRESS =>
      simp only [RakSender.step, RakSender.run, hs]
      by_cases hcond : u32sub now c.lastCycleStartTime > c.wakeWindow
      · rw [if_pos hcond]
        refine ⟨by simp, by simp, rfl, ?_⟩
        intro a ha
        simp only [List.mem_cons, List.not_mem_nil, or_false] at ha
        simp [ha, RakSender.RadioAction.isSend]
      · rw [if_neg hcond]
        refine ⟨?_, ?_, rfl, by simp⟩
        · rw [hs]; simp
        · rw [hs]; simp
    | READY_TO_SEND => exact absurd hs h1
    | WAITING_FOR_TX_DONE => exact absurd hs h2
    | CYCLE_COMPLETE =>
      simp only [RakSender.step, RakSender.run, hs]
      exact ⟨by simp, by simp, by trivial, by simp⟩
  | cadDone b =>
    simp only [RakSender.busyOnly] at hb
    simp only [RakSender.step, RakSender.onCadDone, hb, if_pos]
    refine ⟨h1, h2, by trivial, ?_⟩
    intro a ha
    simp only [List.mem_cons, List.not_mem_nil, or_false] at ha
    simp [ha, RakSender.RadioAction.isSend]
  | txDone => simp [RakSender.busyOnly] at hb
  | txTimeout => simp [RakSender.busyOnly] at hb

/-- Over any all-busy event sequence the sender never reaches the
transmit states, the counter is unchanged and no send is issued. -/
theorem busy_trace (c : RakSender.Coordinator) (evs : List RakSender.Event)
    (h1 : c.senderState ≠ RakSender.SenderState.READY_TO_SEND)
    (h2 : c.senderState ≠ RakSender.SenderState.WAITING_FOR_TX_DONE)
    (hb : ∀ e ∈ evs, RakSender.busyOnly e = true) :
    (RakSender.runTrace c evs).senderState ≠ RakSender.SenderState.READY_TO_SEND ∧
    (RakSender.runTrace c evs).senderState ≠ RakSender.SenderState.WAITING_FOR_TX_DONE ∧
    (RakSender.runTrace c evs).packetCounter = c.packetCounter ∧
    ∀ a ∈ RakSender.traceActions c evs, a.isSend = false := by
  induction evs generalizing c with
  | nil => exact ⟨h1, h2, rfl, by simp [RakSender.traceActions]⟩
  | cons e es ih =>
    have hbe : RakSender.busyOnly e = true := hb e (List.mem_cons_self _ _)
    have hbes : ∀ x ∈ es, RakSender.busyOnly x = true :=
      fun x hx => hb x (List.mem_cons_of_mem _ hx)
    obtain ⟨s1, s2, s3, s4⟩ := busy_step c e hbe h1 h2
    obtain ⟨t1, t2, t3, t4⟩ := ih (RakSender.step c e).1 s1 s2 hbes
    refine ⟨t1, t2, by rw [RakSender.runTrace, t3, s3], ?_⟩
    intro a ha
    simp only [RakSender.traceActions, List.mem_append] at ha
    rcases ha with h | h
    · exact s4 a h
    · exact t4 a h

/-- Along every initial segment of an all-busy event sequence the sender
state is never `WAITING_FOR_TX_DONE`. -/
theorem busy_trace_inits (c : RakSender.Coordinator) (evs : List RakSender.Event)
    (h1 : c.senderState ≠ RakSender.SenderState.READY_TO_SEND)
    (h2 : c.senderState ≠ RakSender.SenderState.WAITING_FOR_TX_DONE)
    (hb : ∀ e ∈ evs, RakSender.busyOnly e = true) :
    ∀ pre ∈ evs.inits,
      (RakSender.runTrace c pre).senderState ≠ RakSender.SenderState.WAITING_FOR_TX_DONE := by
  induction evs generalizing c with
  | nil =>
    intro pre hpre
    simp only [List.inits, List.mem_cons, List.not_mem_nil, or_false] at hpre
    subst hpre
    exact h2
  | cons e es ih =>
    intro pre hpre
    rw [List.inits_cons] at hpre
    simp only [List.mem_cons, List.mem_map] at hpre
    rcases hpre with h | ⟨q, hq, hpre⟩
    · subst h
      exact h2
    · subst hpre
      have hbe : RakSender.busyOnly e = true := hb e (List.mem_cons_self _ _)
      have hbes : ∀ x ∈ es, RakSender.busyOnly x = true :=
        fun x hx => hb x (List.mem_cons_of_mem _ hx)
      obtain ⟨s1, s2, _, _⟩ := busy_step c e hbe h1 h2
      exact ih (RakSender.step c e).1 s1 s2 hbes q hq

/-- `Timer::deserialize` reads only the 14 byte positions of the packet:
its result depends on nothing beyond offset 13. -/
theorem deserializeMem_congr (f g : Nat → Nat) (h : ∀ i, i < 14 → f i = g i) :
    Timer.deserializeMem f = Timer.deserializeMem g := by
  have m13 : (List.range 13).map f = (List.range 13).map g :=
    List.map_congr_left fun i hi => h i (by simp at hi; omega)
  have m8 : (List.range 8).map f = (List.range 8).map g :=
    List.map_congr_left fun i hi => h i (by simp at hi; omega)
  have m82 : (List.range 2).map (fun i => f (8 + i)) =
      (List.range 2).map (fun i => g (8 + i)) :=
    List.map_congr_left fun i hi => h (8 + i) (by simp at hi; omega)
  have m102 : (List.range 2).map (fun i => f (10 + i)) =
      (List.range 2).map (fun i => g (10 + i)) :=
    List.map_congr_left fun i hi => h (10 + i) (by simp at hi; omega)
  simp only [Timer.deserializeMem, m13, m8, m82, m102,
    h 12 (by omega), h 13 (by omega)]

/-! ### Claims -/

/-- C1: for every field assignment of the host/client packet
(`currentTime`, `messageInterval`, `waitTime`, `sleepState`) and every
field assignment of the broadcaster packets (`packetId`,
`messageInterval_s`, `wakeWindow_s`, plus `sourceId`/`destinationId` in
the addressed variant), decoding the fixed-size buffer produced by encode
succeeds and yields exactly the original field values. -/
theorem c1_encode_decode_roundtrip :
    (∀ t : Timer, t.currentTime < 256 ^ 8 → t.messageInterval < 256 ^ 2 →
      t.waitTime < 256 ^ 2 → t.sleepState < 256 →
      Timer.deserialize t.serialize = some t) ∧
    (∀ (q : RakSender.TimerPacket) (id interval window : Nat),
      RakSender.TimerPacket.deserialize q
        (RakSender.TimerPacket.mkPacket id interval window).serialize =
        (true, RakSender.TimerPacket.mkPacket id interval window)) ∧
    (∀ (q : HeltecRouter.TimerPacket) (src dest id interval window : Nat),
      HeltecRouter.TimerPacket.deserialize q
        (HeltecRouter.TimerPacket.mkPacket src dest id interval window).serialize =
        (true, HeltecRouter.TimerPacket.mkPacket src dest id interval window)) :=
  ⟨fun t h1 h2 h3 h4 => timer_roundtrip t h1 h2 h3 h4,
   fun q id interval window => rak_roundtrip q id interval window,
   fun q src dest id interval window => heltec_roundtrip q src dest id interval window⟩

/-- C1 witness: concrete round trips for all three codecs. -/
theorem c1_encode_decode_roundtrip_witness :
    Timer.deserialize (Timer.serialize ⟨1722000000, 10, 5, 1⟩) =
      some ⟨1722000000, 10, 5, 1⟩ ∧
    RakSender.TimerPacket.deserialize ⟨0, 0, 0, 0⟩
      (RakSender.TimerPacket.mkPacket 7 10 3).serialize =
      (true, RakSender.TimerPacket.mkPacket 7 10 3) ∧
    HeltecRouter.TimerPacket.deserialize ⟨0, 0, 0, 0, 0, 0⟩
      (HeltecRouter.TimerPacket.mkPacket 10 20 7 10 3).serialize =
      (true, HeltecRouter.TimerPacket.mkPacket 10 20 7 10 3) :=
  ⟨c1_encode_decode_roundtrip.1 ⟨1722000000, 10, 5, 1⟩
     (by decide) (by decide) (by decide) (by decide),
   c1_encode_decode_roundtrip.2.1 ⟨0, 0, 0, 0⟩ 7 10 3,
   c1_encode_decode_roundtrip.2.2 ⟨0, 0, 0, 0, 0, 0⟩ 10 20 7 10 3⟩

/-- C2 (amended): every checksum-bearing codec variant rejects a full-size
buffer whose trailing byte differs from the XOR of the preceding bytes —
the `working coordination`/`7-26-24` `Timer`, the RAK `TimerPacket`, and
the HELTEC router `TimerPacket`.  (The `src/Timer.h` variant carries no
checksum and accepts any buffer; see the counterexample.) -/
theorem c2_checksum_reject :
    (∀ data : List Nat, data.getD 13 0 ≠ xorChecksum (data.take 13) →
      Timer.deserialize data = none) ∧
    (∀ (p : RakSender.TimerPacket) (data : List Nat), data.length = 9 →
      (∀ b ∈ data, b < 256) → data.getD 8 0 ≠ xorChecksum (data.take 8) →
      (RakSender.TimerPacket.deserialize p data).1 = false) ∧
    (∀ (p : HeltecRouter.TimerPacket) (data : List Nat), data.length = 11 →
      (∀ b ∈ data, b < 256) → data.getD 10 0 ≠ xorChecksum (data.take 10) →
      (HeltecRouter.TimerPacket.deserialize p data).1 = false) :=
  ⟨fun data h => by
     simp only [Timer.deserialize]
     exact if_neg h,
   fun p data hlen hb h => by
     rw [rak_deserialize_spec p data hlen hb, if_neg h],
   fun p data hlen hb h => by
     rw [heltec_deserialize_spec p data hlen hb, if_neg h]⟩

/-- C2 counterexample: the claim quantifies over every codec variant's
default decode, but the `src/Timer.h` variant has no checksum at all: its
13-byte buffer `[1,0,...,0]` has trailing byte `0` different from the XOR
`1` of the preceding 12 bytes, yet `deserialize` still yields a packet
instead of rejecting. -/
theorem c2_checksum_reject_cex :
    [1, 0, 0, 0, 0, 0, 0, 0, 0, 0, 0, 0, 0].getD 12 0 ≠
      xorChecksum ([1, 0, 0, 0, 0, 0, 0, 0, 0, 0, 0, 0, 0].take 12) ∧
    PlainTimer.deserialize [1, 0, 0, 0, 0, 0, 0, 0, 0, 0, 0, 0, 0] = ⟨1, 0, 0, 0⟩ := by
  refine ⟨by decide, by decide⟩

/-- C2 witness: concrete corrupted buffers rejected by all three
checksum codecs. -/
theorem c2_checksum_reject_witness :
    Timer.deserialize [0, 0, 0, 0, 0, 0, 0, 0, 0, 0, 0, 0, 0, 5] = none ∧
    (RakSender.TimerPacket.deserialize ⟨0, 0, 0, 0⟩
      [0, 0, 0, 0, 0, 0, 0, 0, 7]).1 = false ∧
    (HeltecRouter.TimerPacket.deserialize ⟨0, 0, 0, 0, 0, 0⟩
      [0, 0, 0, 0, 0, 0, 0, 0, 0, 0, 7]).1 = false :=
  ⟨c2_checksum_reject.1 [0, 0, 0, 0, 0, 0, 0, 0, 0, 0, 0, 0, 0, 5] (by decide),
   c2_checksum_reject.2.1 ⟨0, 0, 0, 0⟩ [0, 0, 0, 0, 0, 0, 0, 0, 7]
     (by decide) (by decide) (by decide),
   c2_checksum_reject.2.2 ⟨0, 0, 0, 0, 0, 0⟩ [0, 0, 0, 0, 0, 0, 0, 0, 0, 0, 7]
     (by decide) (by decide) (by decide)⟩

/-- C3 (amended): the codec's `deserialize` receives a bare pointer and
no length — it has no `SizeMismatch` result and reads exactly the fixed
14 byte positions whatever the caller provided (second conjunct: the
result depends on nothing beyond offset 13).  The size check lives in the
receive path instead: `OnRxDone` discards any payload whose size differs
from `PACKET_SIZE` before any decoding. -/
theorem c3_short_buffer :
    (∀ (payload : List Nat) (size : Nat), size ≠ RakSender.TimerPacket.PACKET_SIZE →
      RakSender.onRxDone payload size = RakSender.RxResult.sizeMismatch) ∧
    (∀ f g : Nat → Nat, (∀ i, i < DATA_SIZE → f i = g i) →
      Timer.deserializeMem f = Timer.deserializeMem g) :=
  ⟨fun payload size h => by
     simp only [RakSender.onRxDone]
     exact if_pos h,
   fun f g h => deserializeMem_congr f g h⟩

/-- C3 counterexample: the claim requires a short buffer to fail with
`SizeMismatch` without any read past its length, but `Timer::deserialize`
has no size parameter.  With 5 provided bytes `[0,0,0,0,0]`, the decode
result depends on the byte at offset 13 — two memories that agree on all
5 provided positions decode differently (one even yields a packet), so
the decoder reads past the provided length and nothing resembling a size
error occurs. -/
theorem c3_short_buffer_cex :
    Timer.deserializeMem (fun _ => 0) = some ⟨0, 0, 0, 0⟩ ∧
    Timer.deserializeMem (fun i => if i = 13 then 1 else 0) = none ∧
    (List.range 5).map (fun _ => (0 : Nat)) =
      (List.range 5).map (fun i => if i = 13 then 1 else 0) := by
  refine ⟨by decide, by decide, by decide⟩

/-- C3 witness: a wrong-size payload is discarded by `OnRxDone`, and two
memories agreeing on the 14 packet positions decode identically. -/
theorem c3_short_buffer_witness :
    RakSender.onRxDone [] 5 = RakSender.RxResult.sizeMismatch ∧
    Timer.deserializeMem (fun i => i) =
      Timer.deserializeMem (fun i => if i < 14 then i else 99) :=
  ⟨c3_short_buffer.1 [] 5 (by decide),
   c3_short_buffer.2 (fun i => i) (fun i => if i < 14 then i else 99)
     (by
       intro i hi
       have hi14 : i < 14 := hi
       simp only [if_pos hi14])⟩

/-- C4 (amended): on a matching acknowledgment both the host and the
client return `messageInterval - elapsed` when `elapsed ≤
messageInterval`; when `elapsed` exceeds `messageInterval` the
`unsigned long` subtraction wraps to `2^32 - (elapsed - messageInterval)`
— a huge value — with no clamping anywhere. -/
theorem c4_ack_sleep (messageInterval sendTime now : Nat)
    (hi : messageInterval < u32) :
    (u32sub now sendTime / 1000 ≤ messageInterval →
      hostAckSleep messageInterval sendTime now =
        messageInterval - u32sub now sendTime / 1000 ∧
      clientAckSleep messageInterval sendTime now =
        messageInterval - u32sub now sendTime / 1000) ∧
    (messageInterval < u32sub now sendTime / 1000 →
      hostAckSleep messageInterval sendTime now =
        u32 - (u32sub now sendTime / 1000 - messageInterval) ∧
      clientAckSleep messageInterval sendTime now =
        u32 - (u32sub now sendTime / 1000 - messageInterval)) := by
  have he : u32sub now sendTime / 1000 < u32 :=
    lt_of_le_of_lt (Nat.div_le_self _ _) (u32sub_lt now sendTime)
  constructor
  · intro h
    exact ⟨u32sub_of_le _ _ hi h, u32sub_of_le _ _ hi h⟩
  · intro h
    exact ⟨u32sub_of_gt _ _ hi he h, u32sub_of_gt _ _ hi he h⟩

/-- C4 counterexample: with `messageInterval = 10` s and an acknowledgment
11 s after the send, `elapsed = 11 ≥ 10`, yet the returned sleep duration
is the wrapped `unsigned long` value `4294967295`, not a clamped
minimum. -/
theorem c4_ack_sleep_cex :
    u32sub 11000 0 / 1000 = 11 ∧
    hostAckSleep 10 0 11000 = 4294967295 ∧
    clientAckSleep 10 0 11000 = 4294967295 := by
  refine ⟨by decide, by decide, by decide⟩

/-- C4 witness: the §8 scenario — interval 10 s, ack after 1 s, sleep
duration 9 s — for both roles. -/
theorem c4_ack_sleep_witness :
    hostAckSleep 10 0 1000 = 9 ∧ clientAckSleep 10 0 1000 = 9 :=
  ⟨((c4_ack_sleep 10 0 1000 (by decide)).1 (by decide)).1.trans (by decide),
   ((c4_ack_sleep 10 0 1000 (by decide)).1 (by decide)).2.trans (by decide)⟩

/-- C5: over any event sequence in which every channel-activity sense
reports busy, a sender that is not already in a transmit state never
passes through `WAITING_FOR_TX_DONE` (along any initial segment), keeps
its packet counter unchanged and issues no send; and from
`CAD_IN_PROGRESS`, once the wake window has elapsed, the next poll ends
the cycle in `CYCLE_COMPLETE` without touching the counter. -/
theorem c5_all_busy_cycle (c : RakSender.Coordinator) (evs : List RakSender.Event)
    (h1 : c.senderState ≠ RakSender.SenderState.READY_TO_SEND)
    (h2 : c.senderState ≠ RakSender.SenderState.WAITING_FOR_TX_DONE)
    (hb : ∀ e ∈ evs, RakSender.busyOnly e = true) :
    ((RakSender.runTrace c evs).packetCounter = c.packetCounter ∧
     (∀ pre ∈ evs.inits, (RakSender.runTrace c pre).senderState ≠
        RakSender.SenderState.WAITING_FOR_TX_DONE) ∧
     (∀ a ∈ RakSender.traceActions c evs, a.isSend = false)) ∧
    (∀ (d : RakSender.Coordinator) (now : Nat),
      d.senderState = RakSender.SenderState.CAD_IN_PROGRESS →
      u32sub now d.lastCycleStartTime > d.wakeWindow →
      (RakSender.run d now).1.senderState = RakSender.SenderState.CYCLE_COMPLETE ∧
      (RakSender.run d now).1.packetCounter = d.packetCounter) := by
  refine ⟨⟨(busy_trace c evs h1 h2 hb).2.2.1,
           busy_trace_inits c evs h1 h2 hb,
           (busy_trace c evs h1 h2 hb).2.2.2⟩, ?_⟩
  intro d now hs hw
  simp only [RakSender.run, hs]
  rw [if_pos hw]
  exact ⟨rfl, rfl⟩

/-- C5 witness: a concrete all-busy cycle (interval 10000 ms, wake window
3000 ms) that ends in `CYCLE_COMPLETE` with the counter still 0. -/
theorem c5_all_busy_cycle_witness :
    (RakSender.runTrace ⟨RakSender.SenderState.IDLE, 10000, 3000, 0, 0⟩
      [RakSender.Event.poll 10000, RakSender.Event.cadDone true,
       RakSender.Event.poll 11000, RakSender.Event.cadDone true,
       RakSender.Event.poll 13001]).packetCounter = 0 ∧
    (RakSender.runTrace ⟨RakSender.SenderState.IDLE, 10000, 3000, 0, 0⟩
      [RakSender.Event.poll 10000, RakSender.Event.cadDone true,
       RakSender.Event.poll 11000, RakSender.Event.cadDone true,
       RakSender.Event.poll 13001]).senderState = RakSender.SenderState.CYCLE_COMPLETE :=
  ⟨(c5_all_busy_cycle ⟨RakSender.SenderState.IDLE, 10000, 3000, 0, 0⟩
      [RakSender.Event.poll 10000, RakSender.Event.cadDone true,
       RakSender.Event.poll 11000, RakSender.Event.cadDone true,
       RakSender.Event.poll 13001] (by decide) (by decide) (by decide)).1.1,
   by decide⟩

/-- The buffer the RAK sender hands to `Radio.Send`: the composed
packet's payload bytes followed by its checksum XORed with `0xFF`. -/
theorem rak_txBuffer_eq (c : RakSender.Coordinator) :
    RakSender.txBuffer c =
      (RakSender.TimerPacket.mkPacket c.packetCounter (c.cycleInterval / 1000)
        (c.wakeWindow / 1000)).payloadBytes ++
      [xorChecksum ((RakSender.TimerPacket.mkPacket c.packetCounter
        (c.cycleInterval / 1000) (c.wakeWindow / 1000)).payloadBytes) ^^^ 0xFF] := by
  have key : ∀ (l : List Nat) (ck : Nat), l.length = 8 →
      (l ++ [ck]).set 8 ((l ++ [ck]).getD 8 0 ^^^ 0xFF) = l ++ [ck ^^^ 0xFF] := by
    intro l ck hl
    have hg : (l ++ [ck]).getD 8 0 = ck :=
      getD_of_drop _ _ _ _ (drop_append_of_length _ _ _ hl)
    rw [hg]
    have hset := set_append_length l [ck] (ck ^^^ 0xFF)
    rw [hl] at hset
    rw [hset]
    rfl
  have happ := key
    (RakSender.TimerPacket.mkPacket c.packetCounter (c.cycleInterval / 1000)
      (c.wakeWindow / 1000)).payloadBytes
    (RakSender.TimerPacket.mkPacket c.packetCounter (c.cycleInterval / 1000)
      (c.wakeWindow / 1000)).checksum
    (rak_payload_length _)
  calc RakSender.txBuffer c
      = ((RakSender.TimerPacket.mkPacket c.packetCounter (c.cycleInterval / 1000)
          (c.wakeWindow / 1000)).payloadBytes ++
         [(RakSender.TimerPacket.mkPacket c.packetCounter (c.cycleInterval / 1000)
          (c.wakeWindow / 1000)).checksum]).set 8
          (((RakSender.TimerPacket.mkPacket c.packetCounter (c.cycleInterval / 1000)
            (c.wakeWindow / 1000)).payloadBytes ++
           [(RakSender.TimerPacket.mkPacket c.packetCounter (c.cycleInterval / 1000)
            (c.wakeWindow / 1000)).checksum]).getD 8 0 ^^^ 0xFF) := rfl
    _ = (RakSender.TimerPacket.mkPacket c.packetCounter (c.cycleInterval / 1000)
          (c.wakeWindow / 1000)).payloadBytes ++
        [(RakSender.TimerPacket.mkPacket c.packetCounter (c.cycleInterval / 1000)
          (c.wakeWindow / 1000)).checksum ^^^ 0xFF] := happ
    _ = _ := rfl

/-- C6 (amended): in `READY_TO_SEND` the sender transmits the serialized
composed packet with its final checksum byte deliberately XORed with
`0xFF` — so the transmitted trailing byte is NOT the XOR of the preceding
bytes — and the sequence counter increments by exactly one per
transmission. -/
theorem c6_ready_to_send (c : RakSender.Coordinator) (now : Nat)
    (h : c.senderState = RakSender.SenderState.READY_TO_SEND) :
    (RakSender.run c now).2 = [RakSender.RadioAction.send (RakSender.txBuffer c)] ∧
    RakSender.txBuffer c =
      (RakSender.TimerPacket.mkPacket c.packetCounter (c.cycleInterval / 1000)
        (c.wakeWindow / 1000)).payloadBytes ++
      [xorChecksum ((RakSender.TimerPacket.mkPacket c.packetCounter
        (c.cycleInterval / 1000) (c.wakeWindow / 1000)).payloadBytes) ^^^ 0xFF] ∧
    xorChecksum ((RakSender.TimerPacket.mkPacket c.packetCounter
        (c.cycleInterval / 1000) (c.wakeWindow / 1000)).payloadBytes) ^^^ 0xFF ≠
      xorChecksum ((RakSender.TimerPacket.mkPacket c.packetCounter
        (c.cycleInterval / 1000) (c.wakeWindow / 1000)).payloadBytes) ∧
    (RakSender.run c now).1.packetCounter = c.packetCounter + 1 ∧
    (RakSender.run c now).1.senderState = RakSender.SenderState.WAITING_FOR_TX_DONE := by
  refine ⟨?_, rak_txBuffer_eq c, xor_ne_self (by decide), ?_, ?_⟩
  · simp only [RakSender.run, h]
  · simp only [RakSender.run, h]
  · simp only [RakSender.run, h]

/-- C6 counterexample: with counter 0, interval 10000 ms and window
3000 ms, the transmitted buffer is `[0,0,0,0,10,0,3,0,246]`, whose
trailing byte `246` is not the XOR `9` of the preceding bytes — the
buffer handed to the transport is NOT a valid encoding. -/
theorem c6_ready_to_send_cex :
    (RakSender.run ⟨RakSender.SenderState.READY_TO_SEND, 10000, 3000, 0, 0⟩ 0).2 =
      [RakSender.RadioAction.send [0, 0, 0, 0, 10, 0, 3, 0, 246]] ∧
    [0, 0, 0, 0, 10, 0, 3, 0, 246].getD 8 0 ≠
      xorChecksum ([0, 0, 0, 0, 10, 0, 3, 0, 246].take 8) := by
  refine ⟨by decide, by decide⟩

/-- C6 witness: the counter increments and the machine moves to
`WAITING_FOR_TX_DONE` at a concrete `READY_TO_SEND` state. -/
theorem c6_ready_to_send_witness :
    (RakSender.run ⟨RakSender.SenderState.READY_TO_SEND, 10000, 3000, 0, 0⟩ 0).1.packetCounter = 1 ∧
    (RakSender.run ⟨RakSender.SenderState.READY_TO_SEND, 10000, 3000, 0, 0⟩ 0).1.senderState =
      RakSender.SenderState.WAITING_FOR_TX_DONE :=
  ⟨(c6_ready_to_send ⟨RakSender.SenderState.READY_TO_SEND, 10000, 3000, 0, 0⟩ 0 rfl).2.2.2.1,
   (c6_ready_to_send ⟨RakSender.SenderState.READY_TO_SEND, 10000, 3000, 0, 0⟩ 0 rfl).2.2.2.2⟩

/-- C7: flipping any single bit of any non-checksum byte of a
validly-encoded 14-byte buffer makes the default decode reject with a
checksum error; only the checksum byte itself (offset 13) is excluded. -/
theorem c7_single_bit_flip (data : List Nat) (i k : Nat)
    (hlen : data.length = 14)
    (hvalid : data.getD 13 0 = xorChecksum (data.take 13))
    (hi : i < 13) (hk : k < 8) :
    Timer.deserialize (flipBit data i k) = none := by
  have h13 : (flipBit data i k).getD 13 0 = data.getD 13 0 := by
    simp only [flipBit, List.getD_eq_getElem?_getD]
    rw [List.getElem?_set_ne (by omega : i ≠ 13)]
  have hgd : (data.take 13).getD i 0 = data.getD i 0 := by
    simp only [List.getD_eq_getElem?_getD]
    rw [List.getElem?_take, if_pos hi]
  have htake : (flipBit data i k).take 13 =
      (data.take 13).set i ((data.take 13).getD i 0 ^^^ 2 ^ k) := by
    simp only [flipBit]
    rw [List.set_take, hgd]
  have hxor : xorChecksum ((flipBit data i k).take 13) =
      xorChecksum (data.take 13) ^^^ 2 ^ k := by
    rw [htake]
    exact xorChecksum_set (data.take 13) i (2 ^ k)
      (by rw [List.length_take, hlen]; omega)
  simp only [Timer.deserialize, h13, hxor, hvalid]
  rw [if_neg]
  intro hEq
  exact xor_ne_self (Nat.pos_iff_ne_zero.mp (Nat.pos_pow_of_pos k (by omega))) hEq.symm

/-- C7 witness: flipping bit 0 of byte 0 of the valid all-zero buffer is
rejected. -/
theorem c7_single_bit_flip_witness :
    Timer.deserialize (flipBit [0, 0, 0, 0, 0, 0, 0, 0, 0, 0, 0, 0, 0, 0] 0 0) = none :=
  c7_single_bit_flip [0, 0, 0, 0, 0, 0, 0, 0, 0, 0, 0, 0, 0, 0] 0 0
    (by decide) (by decide) (by decide) (by decide)

/-- C8: when the client decodes a full-size buffer whose checksum
validates, it adopts the received schedule, records the receipt
timestamp, transmits the echoed checksum byte exactly 5 times with a
225 ms delay before each send, and returns `messageInterval` minus the
elapsed seconds (exact subtraction whenever `elapsed ≤ messageInterval`);
on checksum mismatch it sends no reply and keeps listening. -/
theorem c8_client_rx (data : List Nat) (elapsedSec : Nat)
    (hlen : data.length = DATA_SIZE) :
    (data.getD (DATA_SIZE - 1) 0 = xorChecksum (data.take (DATA_SIZE - 1)) →
      clientHandleRx data elapsedSec =
        { adopted := some ⟨leValue (slice data 0 8), leValue (slice data 8 2),
                           leValue (slice data 10 2), data.getD 12 0⟩
          receiptRecorded := true
          sends := List.replicate 5 (225, data.getD (DATA_SIZE - 1) 0)
          sleepSeconds := some (u32sub (leValue (slice data 8 2)) elapsedSec) }) ∧
    (data.getD (DATA_SIZE - 1) 0 = xorChecksum (data.take (DATA_SIZE - 1)) →
      elapsedSec ≤ leValue (slice data 8 2) → leValue (slice data 8 2) < u32 →
      (clientHandleRx data elapsedSec).sleepSeconds =
        some (leValue (slice data 8 2) - elapsedSec)) ∧
    (data.getD (DATA_SIZE - 1) 0 ≠ xorChecksum (data.take (DATA_SIZE - 1)) →
      clientHandleRx data elapsedSec =
        { adopted := none, receiptRecorded := false, sends := [],
          sleepSeconds := none }) := by
  have hvalidCase : ∀ _ : data.getD (DATA_SIZE - 1) 0 =
      xorChecksum (data.take (DATA_SIZE - 1)),
      clientHandleRx data elapsedSec =
        { adopted := some ⟨leValue (slice data 0 8), leValue (slice data 8 2),
                           leValue (slice data 10 2), data.getD 12 0⟩
          receiptRecorded := true
          sends := List.replicate 5 (225, data.getD (DATA_SIZE - 1) 0)
          sleepSeconds := some (u32sub (leValue (slice data 8 2)) elapsedSec) } := by
    intro h
    have h13 : data.getD 13 0 = xorChecksum (data.take 13) := h
    have hds : Timer.deserialize data =
        some ⟨leValue (slice data 0 8), leValue (slice data 8 2),
              leValue (slice data 10 2), data.getD 12 0⟩ := by
      simp only [Timer.deserialize]
      rw [if_pos h13]
    have hdec : Timer.ofBuffer data =
        ⟨leValue (slice data 0 8), leValue (slice data 8 2),
         leValue (slice data 10 2), data.getD 12 0⟩ := by
      simp only [Timer.ofBuffer, hds]
    simp only [clientHandleRx, hdec]
    rw [if_pos h]
  refine ⟨hvalidCase, fun h h2 h3 => ?_, fun h => ?_⟩
  · rw [hvalidCase h]
    exact congrArg some (u32sub_of_le _ _ h3 h2)
  · simp only [clientHandleRx]
    rw [if_neg h]

/-- C8 witness: a concrete valid buffer (interval 10 s) with 1 s elapsed,
and the §8 corrupted-checksum buffer on which the client stays silent. -/
theorem c8_client_rx_witness :
    clientHandleRx [0, 0, 0, 0, 0, 0, 0, 0, 10, 0, 5, 0, 1, 14] 1 =
      { adopted := some ⟨0, 10, 5, 1⟩
        receiptRecorded := true
        sends := List.replicate 5 (225, 14)
        sleepSeconds := some (u32sub 10 1) } ∧
    clientHandleRx [0, 0, 0, 0, 0, 0, 0, 0, 10, 0, 5, 0, 1, 241] 1 =
      { adopted := none, receiptRecorded := false, sends := [],
        sleepSeconds := none } :=
  ⟨((c8_client_rx [0, 0, 0, 0, 0, 0, 0, 0, 10, 0, 5, 0, 1, 14] 1 (by decide)).1
      (by decide)).trans (by decide),
   (c8_client_rx [0, 0, 0, 0, 0, 0, 0, 0, 10, 0, 5, 0, 1, 241] 1 (by decide)).2.2
     (by decide)⟩

/-- C9: the RAK and HELTEC `TimerPacket::deserialize` are not atomic on
failure: for every input buffer the payload fields are overwritten with
the buffer's decoded values before the checksum is verified, so when the
method returns `false` those fields hold the rejected buffer's values
while only the checksum field retains its prior value. -/
theorem c9_deserialize_not_atomic :
    (∀ (p : RakSender.TimerPacket) (buffer : List Nat),
      ((RakSender.TimerPacket.deserialize p buffer).2.packetId =
          leValue (slice buffer 0 4) ∧
       (RakSender.TimerPacket.deserialize p buffer).2.messageInterval_s =
          leValue (slice buffer 4 2) ∧
       (RakSender.TimerPacket.deserialize p buffer).2.wakeWindow_s =
          leValue (slice buffer 6 2)) ∧
      ((RakSender.TimerPacket.deserialize p buffer).1 = false →
        (RakSender.TimerPacket.deserialize p buffer).2.checksum = p.checksum)) ∧
    (∀ (p : HeltecRouter.TimerPacket) (buffer : List Nat),
      ((HeltecRouter.TimerPacket.deserialize p buffer).2.sourceId = buffer.getD 0 0 ∧
       (HeltecRouter.TimerPacket.deserialize p buffer).2.destinationId = buffer.getD 1 0 ∧
       (HeltecRouter.TimerPacket.deserialize p buffer).2.packetId =
          leValue (slice buffer 2 4) ∧
       (HeltecRouter.TimerPacket.deserialize p buffer).2.messageInterval_s =
          leValue (slice buffer 6 2) ∧
       (HeltecRouter.TimerPacket.deserialize p buffer).2.wakeWindow_s =
          leValue (slice buffer 8 2)) ∧
      ((HeltecRouter.TimerPacket.deserialize p buffer).1 = false →
        (HeltecRouter.TimerPacket.deserialize p buffer).2.checksum = p.checksum)) := by
  constructor
  · intro p buffer
    simp only [RakSender.TimerPacket.deserialize]
    split
    · exact ⟨⟨rfl, rfl, rfl⟩, fun h => by simp at h⟩
    · exact ⟨⟨rfl, rfl, rfl⟩, fun _ => rfl⟩
  · intro p buffer
    simp only [HeltecRouter.TimerPacket.deserialize]
    split
    · exact ⟨⟨rfl, rfl, rfl, rfl, rfl⟩, fun h => by simp at h⟩
    · exact ⟨⟨rfl, rfl, rfl, rfl, rfl⟩, fun _ => rfl⟩

/-- C9 witness: a rejected 9-byte buffer leaves the RAK packet's payload
fields overwritten while its checksum keeps the prior value `5`, and
likewise for the router packet. -/
theorem c9_deserialize_not_atomic_witness :
    (RakSender.TimerPacket.deserialize ⟨1, 2, 3, 5⟩
      [9, 0, 0, 0, 0, 0, 0, 0, 77]).2.packetId = 9 ∧
    (RakSender.TimerPacket.deserialize ⟨1, 2, 3, 5⟩
      [9, 0, 0, 0, 0, 0, 0, 0, 77]).2.checksum = 5 ∧
    (RakSender.TimerPacket.deserialize ⟨1, 2, 3, 5⟩
      [9, 0, 0, 0, 0, 0, 0, 0, 77]).1 = false :=
  ⟨((c9_deserialize_not_atomic.1 ⟨1, 2, 3, 5⟩
      [9, 0, 0, 0, 0, 0, 0, 0, 77]).1.1).trans (by decide),
   (c9_deserialize_not_atomic.1 ⟨1, 2, 3, 5⟩
      [9, 0, 0, 0, 0, 0, 0, 0, 77]).2 (by decide),
   by decide⟩

/-- C10: the value constructor of the `working coordination` /
`7-26-24` `Timer` masks `sleepState` with `0x03` (so it is always below
4), while `deserialize` stores the buffer's `sleepState` byte verbatim,
with no mask. -/
theorem c10_sleep_state_mask :
    (∀ ct mi wt s : Nat, (Timer.ofFields ct mi wt s).sleepState = s &&& 3 ∧
      (Timer.ofFields ct mi wt s).sleepState < 4) ∧
    (∀ (data : List Nat) (t : Timer), Timer.deserialize data = some t →
      t.sleepState = data.getD 12 0) := by
  refine ⟨fun ct mi wt s => ⟨rfl, ?_⟩, fun data t h => ?_⟩
  · show s &&& 3 < 4
    have h3 : s &&& 3 ≤ 3 := Nat.and_le_right
    omega
  · simp only [Timer.deserialize] at h
    split at h
    · injection h with h2
      rw [← h2]
    · exact absurd h (by simp)

/-- C10 witness: constructing with `sleepState = 7` stores `3`, while
decoding a valid buffer whose `sleepState` byte is `7` yields `7`, a
value above 3. -/
theorem c10_sleep_state_mask_witness :
    (Timer.ofFields 0 0 0 7).sleepState = 3 ∧
    Timer.deserialize [0, 0, 0, 0, 0, 0, 0, 0, 0, 0, 0, 0, 7, 7] = some ⟨0, 0, 0, 7⟩ ∧
    (⟨0, 0, 0, 7⟩ : Timer).sleepState = 7 :=
  ⟨(c10_sleep_state_mask.1 0 0 0 7).1.trans (by decide),
   by decide,
   (c10_sleep_state_mask.2 [0, 0, 0, 0, 0, 0, 0, 0, 0, 0, 0, 0, 7, 7] ⟨0, 0, 0, 7⟩
      (by decide)).trans (by decide)⟩

end LoRaSpec
